import Mathlib

/-!
Verification of the aumix repository: the waveform generators of
`aumix/signal/simple_signal.py` and the WAV encoder of `aumix/io/wav.py`,
shallowly embedded in Lean.

Numeric data is idealised: sample values are real numbers (for the
trigonometric generators) or rational numbers (for the encoder's
normalisation arithmetic, which is exact on the inputs considered);
Python strings are modelled as `List Char`.
-/

namespace Aumix

/-! ### Waveform generation (`aumix/signal/simple_signal.py`)

`Signal.__init__` stores `freq`, `samp_rate`, `duration` and computes
`self.samp_nums = np.arange(duration * samp_rate) / samp_rate`, then calls
the variant's `gen_data`.
-/

/-- The constructor parameters of `Signal` (`freq`, `samp_rate`, `duration`). -/
structure SignalParams where
  freq : ℚ
  samp_rate : ℚ
  duration : ℚ

/-- Number of elements of `np.arange(stop)`: `ceil(stop)` clamped at zero
(`Nat.ceil` of a nonpositive rational is `0`, matching numpy's empty range). -/
def arangeLen (stop : ℚ) : ℕ := ⌈stop⌉₊

/-- `np.arange(stop)`: the integers `0, 1, ..., arangeLen stop - 1`. -/
def arange (stop : ℚ) : List ℕ := List.range (arangeLen stop)

/-- `self.samp_nums = np.arange(duration * samp_rate) / samp_rate`. -/
noncomputable def sampNums (p : SignalParams) : List ℝ :=
  (arange (p.duration * p.samp_rate)).map (fun (i : ℕ) => (i : ℝ) / ((p.samp_rate : ℝ)))

/-- `SineSignal.gen_data`: `self.data = np.sin(np.pi * self.freq * self.samp_nums)`. -/
noncomputable def sineData (p : SignalParams) : List ℝ :=
  (sampNums p).map (fun t => Real.sin (Real.pi * (p.freq : ℝ) * t))

/-- `CosineSignal.gen_data`: `self.data = np.cos(np.pi * self.freq * self.samp_nums)`. -/
noncomputable def cosineData (p : SignalParams) : List ℝ :=
  (sampNums p).map (fun t => Real.cos (Real.pi * (p.freq : ℝ) * t))

/-- `scipy.signal.square(t)` at the default duty cycle 0.5: `+1` on the first
half of each `2π` period and `-1` on the second half. -/
noncomputable def scipySquare (t : ℝ) : ℝ :=
  if Int.fract (t / (2 * Real.pi)) < 1 / 2 then 1 else -1

/-- `SquareSignal.gen_data`: `self.data = signal.square(np.pi * self.freq * self.samp_nums)`. -/
noncomputable def squareData (p : SignalParams) : List ℝ :=
  (sampNums p).map (fun t => scipySquare (Real.pi * (p.freq : ℝ) * t))

/-- `scipy.signal.sawtooth(t)` at the default width 1: a ramp rising from `-1`
to `1` over each `2π` period, i.e. `2 · fract(t / 2π) - 1`. -/
noncomputable def scipySawtooth (t : ℝ) : ℝ :=
  2 * Int.fract (t / (2 * Real.pi)) - 1

/-- `SawtoothSignal.gen_data`:
`self.data = (signal.sawtooth(np.pi * self.freq * self.samp_nums) + 1) / 2`. -/
noncomputable def sawtoothData (p : SignalParams) : List ℝ :=
  (sampNums p).map (fun t => (scipySawtooth (Real.pi * (p.freq : ℝ) * t) + 1) / 2)

/-! ### Claim C1: sample-sequence length -/

lemma length_sampNums (p : SignalParams) :
    (sampNums p).length = arangeLen (p.duration * p.samp_rate) := by
  rw [sampNums, List.length_map, arange, List.length_range]

lemma length_sineData (p : SignalParams) :
    (sineData p).length = arangeLen (p.duration * p.samp_rate) := by
  rw [sineData, List.length_map, length_sampNums]

lemma length_cosineData (p : SignalParams) :
    (cosineData p).length = arangeLen (p.duration * p.samp_rate) := by
  rw [cosineData, List.length_map, length_sampNums]

lemma length_squareData (p : SignalParams) :
    (squareData p).length = arangeLen (p.duration * p.samp_rate) := by
  rw [squareData, List.length_map, length_sampNums]

lemma length_sawtoothData (p : SignalParams) :
    (sawtoothData p).length = arangeLen (p.duration * p.samp_rate) := by
  rw [sawtoothData, List.length_map, length_sampNums]

/-- C1 (counterexample): with frequency 440, sample rate 5 and duration 1/2 —
all positive, and `duration * sample_rate = 5/2` not an exact integer — the
generated sample sequence has length `ceil(5/2) = 3`, not
`floor(duration * sample_rate) = 2` as the claim states. -/
theorem C1_counterexample :
    (0:ℚ) < 440 ∧ (0:ℚ) < 5 ∧ (0:ℚ) < 1/2 ∧
    (sineData ⟨440, 5, 1/2⟩).length ≠ ⌊((1:ℚ)/2) * 5⌋₊ := by
  refine ⟨by norm_num, by norm_num, by norm_num, ?_⟩
  have h1 : (sineData ⟨440, 5, 1/2⟩).length = 3 := by
    rw [length_sineData, arangeLen]
    rw [Nat.ceil_eq_iff (by norm_num)]
    norm_num
  have h2 : ⌊((1:ℚ)/2) * 5⌋₊ = 2 := by
    rw [Nat.floor_eq_iff (by norm_num)]
    norm_num
  rw [h1, h2]
  norm_num

/-- C1 (amended): for every waveform variant and all positive frequency,
sample rate and duration, the generated sample sequence has length
`ceil(duration * sample_rate)` (which equals `duration * sample_rate` when
that product is an exact integer, and its ceiling — not its floor — when it
is not). -/
theorem C1_amended (p : SignalParams) (hf : 0 < p.freq) (hs : 0 < p.samp_rate)
    (hd : 0 < p.duration) :
    (sineData p).length = ⌈p.duration * p.samp_rate⌉₊ ∧
    (cosineData p).length = ⌈p.duration * p.samp_rate⌉₊ ∧
    (squareData p).length = ⌈p.duration * p.samp_rate⌉₊ ∧
    (sawtoothData p).length = ⌈p.duration * p.samp_rate⌉₊ := by
  rw [length_sineData, length_cosineData, length_squareData, length_sawtoothData,
    arangeLen]
  exact ⟨rfl, rfl, rfl, rfl⟩

/-- C1 (witness): the amended claim instantiated at frequency 1, sample rate 2,
duration 3, where all four generators produce `ceil(3 · 2) = 6` samples. -/
theorem C1_witness :
    (sineData ⟨1, 2, 3⟩).length = 6 ∧ (cosineData ⟨1, 2, 3⟩).length = 6 ∧
    (squareData ⟨1, 2, 3⟩).length = 6 ∧ (sawtoothData ⟨1, 2, 3⟩).length = 6 := by
  have h := C1_amended ⟨1, 2, 3⟩ (by norm_num) (by norm_num) (by norm_num)
  have e : ⌈(3:ℚ) * 2⌉₊ = 6 := by
    rw [Nat.ceil_eq_iff (by norm_num)]
    norm_num
  obtain ⟨h1, h2, h3, h4⟩ := h
  exact ⟨e ▸ h1, e ▸ h2, e ▸ h3, e ▸ h4⟩

/-! ### Claim C5: sine and cosine sample values -/

lemma sampNums_getD (p : SignalParams) (i : ℕ)
    (h : i < arangeLen (p.duration * p.samp_rate)) :
    (sampNums p).getD i 0 = (i : ℝ) / ((p.samp_rate : ℝ)) := by
  rw [sampNums, List.getD_eq_getElem _ _
    (by rw [List.length_map, arange, List.length_range]; exact h)]
  simp [arange]

/-- C5: for every signal parameter set and every in-range index `i`, the `i`-th
sample index is exactly `i / samp_rate`, the `i`-th sine sample is
`sin(π · freq · (i / samp_rate))`, and the `i`-th cosine sample is
`cos(π · freq · (i / samp_rate))`. -/
theorem C5_sine_cosine_samples (p : SignalParams) (i : ℕ)
    (h : i < arangeLen (p.duration * p.samp_rate)) :
    (sampNums p).getD i 0 = (i : ℝ) / ((p.samp_rate : ℝ)) ∧
    (sineData p).getD i 0 =
      Real.sin (Real.pi * (p.freq : ℝ) * ((i : ℝ) / ((p.samp_rate : ℝ)))) ∧
    (cosineData p).getD i 0 =
      Real.cos (Real.pi * (p.freq : ℝ) * ((i : ℝ) / ((p.samp_rate : ℝ)))) := by
  refine ⟨sampNums_getD p i h, ?_, ?_⟩
  · rw [sineData, List.getD_eq_getElem _ _
      (by rw [List.length_map, length_sampNums]; exact h)]
    simp [sampNums, arange]
  · rw [cosineData, List.getD_eq_getElem _ _
      (by rw [List.length_map, length_sampNums]; exact h)]
    simp [sampNums, arange]

/-- C5 (witness): at frequency 1, sample rate 2, duration 1 there are two
samples, and sample 1 sits at time 1/2 with value `sin(π · 1 · (1/2))`
(resp. `cos`). -/
theorem C5_witness :
    (sampNums ⟨1, 2, 1⟩).getD 1 0 = ((1 : ℕ) : ℝ) / (((2 : ℚ) : ℝ)) ∧
    (sineData ⟨1, 2, 1⟩).getD 1 0 =
      Real.sin (Real.pi * ((1 : ℚ) : ℝ) * (((1 : ℕ) : ℝ) / (((2 : ℚ) : ℝ)))) ∧
    (cosineData ⟨1, 2, 1⟩).getD 1 0 =
      Real.cos (Real.pi * ((1 : ℚ) : ℝ) * (((1 : ℕ) : ℝ) / (((2 : ℚ) : ℝ)))) :=
  C5_sine_cosine_samples ⟨1, 2, 1⟩ 1 (by
    rw [arangeLen]
    show (1 : ℕ) < ⌈(1 : ℚ) * 2⌉₊
    have e : ⌈((1 : ℚ)) * 2⌉₊ = 2 := by
      rw [Nat.ceil_eq_iff (by norm_num)]
      norm_num
    rw [e]
    norm_num)

/-! ### Claim C8: sawtooth range -/

lemma sawtooth_val_bounds (t : ℝ) :
    0 ≤ (scipySawtooth t + 1) / 2 ∧ (scipySawtooth t + 1) / 2 ≤ 1 := by
  rw [scipySawtooth]
  have h0 := Int.fract_nonneg (t / (2 * Real.pi))
  have h1 := le_of_lt (Int.fract_lt_one (t / (2 * Real.pi)))
  constructor <;> linarith

lemma sawtoothData_mem_bounds (p : SignalParams) (x : ℝ)
    (hx : x ∈ sawtoothData p) : 0 ≤ x ∧ x ≤ 1 := by
  rw [sawtoothData] at hx
  obtain ⟨t, _, rfl⟩ := List.mem_map.mp hx
  exact sawtooth_val_bounds _

/-- C8: every sample produced by the sawtooth generator lies in `[0, 1]`
(the scipy ramp in `[-1, 1)` remapped via `(ramp + 1) / 2`), for any
frequency, duration and sample rate. -/
theorem C8_sawtooth_range (p : SignalParams) (i : ℕ)
    (h : i < (sawtoothData p).length) :
    0 ≤ (sawtoothData p).getD i 0 ∧ (sawtoothData p).getD i 0 ≤ 1 := by
  have hx : (sawtoothData p).getD i 0 ∈ sawtoothData p := by
    rw [List.getD_eq_getElem _ _ h]
    exact List.getElem_mem h
  exact sawtoothData_mem_bounds p _ hx

/-- C8 (witness): the sawtooth generator at frequency 1, sample rate 1,
duration 1 has its sample 0 inside `[0, 1]`. -/
theorem C8_witness :
    0 ≤ (sawtoothData ⟨1, 1, 1⟩).getD 0 0 ∧ (sawtoothData ⟨1, 1, 1⟩).getD 0 0 ≤ 1 :=
  C8_sawtooth_range ⟨1, 1, 1⟩ 0 (by
    rw [length_sawtoothData, arangeLen]
    simp [Nat.ceil_pos])

/-! ### WAV encoding (`aumix/io/wav.py`): normalization

`write` computes `amplitude = amp_perc * (np.iinfo(dtype).max if dtype !=
np.float32 else 1)` and then branches: for `np.uint8` it shifts the data so
the minimum becomes zero before scaling; otherwise it scales directly by the
data's maximum.
-/

/-- The four supported output sample types of `wav.write`. -/
inductive Dtype
  | uint8
  | int16
  | int32
  | float32
deriving DecidableEq

/-- `np.iinfo(dtype).max` for the integer dtypes (never queried for
`float32`; the value there is arbitrary). -/
def iinfoMax : Dtype → ℚ
  | Dtype.uint8 => 255
  | Dtype.int16 => 32767
  | Dtype.int32 => 2147483647
  | Dtype.float32 => 0

/-- `amplitude = amp_perc * (np.iinfo(dtype).max if dtype != np.float32 else 1)`. -/
def amplitude (dtype : Dtype) (amp_perc : ℚ) : ℚ :=
  amp_perc * (if dtype ≠ Dtype.float32 then iinfoMax dtype else 1)

/-- `np.max` on a list of rationals (`0` on the empty list, on which numpy
raises instead). -/
def npMax : List ℚ → ℚ
  | [] => 0
  | x :: xs => xs.foldl max x

/-- `np.min` on a list of rationals (`0` on the empty list). -/
def npMin : List ℚ → ℚ
  | [] => 0
  | x :: xs => xs.foldl min x

/-- The pre-cast output of `wav.write`: the `np.uint8` branch shifts by the
minimum first (`unsigned_data = data - np.min(data)`,
`out_data = unsigned_data * amplitude / np.max(unsigned_data)`); every other
dtype scales directly (`out_data = data * amplitude / np.max(data)`). -/
def out_data (dtype : Dtype) (amp_perc : ℚ) (data : List ℚ) : List ℚ :=
  if dtype = Dtype.uint8 then
    let unsigned_data := data.map (fun x => x - npMin data)
    unsigned_data.map (fun x => x * amplitude dtype amp_perc / npMax unsigned_data)
  else
    data.map (fun x => x * amplitude dtype amp_perc / npMax data)

/-- Modelled from the spec: the representation's maximum representable
magnitude — `1` for the floating-point target and the maximum positive value
for the integer targets. -/
def maxMagnitude : Dtype → ℚ
  | Dtype.uint8 => 255
  | Dtype.int16 => 32767
  | Dtype.int32 => 2147483647
  | Dtype.float32 => 1

/-- `ndarray.astype` for a float value cast to an integer dtype: C-style
truncation toward zero (all values cast in this development are in range). -/
def truncToInt (q : ℚ) : ℤ :=
  if 0 ≤ q then ⌊q⌋ else ⌈q⌉

/-- `np.max` on a list of integers (`0` on the empty list). -/
def npMaxZ : List ℤ → ℤ
  | [] => 0
  | x :: xs => xs.foldl max x

/-- `np.min` on a list of integers (`0` on the empty list). -/
def npMinZ : List ℤ → ℤ
  | [] => 0
  | x :: xs => xs.foldl min x

/-! ### Claim C2: normalization for the non-uint8 targets -/

lemma out_data_not_uint8 (dtype : Dtype) (hd : dtype ≠ Dtype.uint8)
    (a : ℚ) (data : List ℚ) :
    out_data dtype a data =
      data.map (fun x => x * (a * maxMagnitude dtype) / npMax data) := by
  cases dtype <;> simp [out_data, amplitude, iinfoMax, maxMagnitude] at hd ⊢

/-- C2: for every target other than `uint8`, the pre-cast output is
`data * (amp_perc * max_magnitude) / np.max(data)`, where `max_magnitude` is
`1` for `float32` and the type's maximum positive value for `int16`/`int32`;
and the divisor is the plain maximum, which differs from the maximum absolute
value (e.g. on `[-4, 2]` the divisor is `2` while the maximum absolute value
is `4`). -/
theorem C2_direct_scale_normalization :
    (∀ dtype : Dtype, dtype ≠ Dtype.uint8 → ∀ (a : ℚ) (data : List ℚ),
      out_data dtype a data =
        data.map (fun x => x * (a * maxMagnitude dtype) / npMax data)) ∧
    npMax [(-4 : ℚ), 2] = 2 ∧ npMax ([(-4 : ℚ), 2].map (fun x => |x|)) = 4 := by
  refine ⟨out_data_not_uint8, ?_, ?_⟩ <;> norm_num [npMax, max_def]

/-- C2 (witness): the `int16` target at full amplitude on data `[1, 2]`. -/
theorem C2_witness :
    out_data Dtype.int16 1 [1, 2] =
      [(1 : ℚ), 2].map (fun x => x * ((1 : ℚ) * maxMagnitude Dtype.int16) / npMax [1, 2]) :=
  C2_direct_scale_normalization.1 Dtype.int16 (by decide) 1 [1, 2]

/-! ### Claim C3: the uint8 branch -/

lemma out_data_uint8 (a : ℚ) (data : List ℚ) :
    out_data Dtype.uint8 a data =
      (data.map (fun x => x - npMin data)).map
        (fun x => x * (a * maxMagnitude Dtype.uint8) /
          npMax (data.map (fun y => y - npMin data))) := by
  simp [out_data, amplitude, iinfoMax, maxMagnitude]

lemma amplitude_uint8_one : amplitude Dtype.uint8 1 = 255 := by
  rw [amplitude, if_pos (show Dtype.uint8 ≠ Dtype.float32 by decide)]
  norm_num [iinfoMax]

lemma out_data_uint8_example :
    out_data Dtype.uint8 1 [-2, 0, 2] = [0, 255 / 2, 255] := by
  rw [out_data]
  norm_num [amplitude_uint8_one, npMin, npMax, min_def, max_def]

lemma written_uint8_example :
    (out_data Dtype.uint8 1 [-2, 0, 2]).map truncToInt = [0, 127, 255] := by
  rw [out_data_uint8_example]
  have h1 : truncToInt 0 = 0 := by
    rw [truncToInt, if_pos le_rfl]
    exact Int.floor_zero
  have h2 : truncToInt (255 / 2) = 127 := by
    rw [truncToInt, if_pos (by norm_num), Int.floor_eq_iff]
    norm_num
  have h3 : truncToInt 255 = 255 := by
    rw [truncToInt, if_pos (by norm_num), Int.floor_eq_iff]
    norm_num
  simp [h1, h2, h3]

/-- C3: for the `uint8` target, the pre-cast output is
`(data - np.min(data)) * (amp_perc * 255) / np.max(data - np.min(data))`;
and concretely, encoding `[-2, 0, 2]` at full amplitude yields a written
buffer whose maximum is 255 and whose minimum is 0. -/
theorem C3_uint8_shift_normalization :
    (∀ (a : ℚ) (data : List ℚ),
      out_data Dtype.uint8 a data =
        (data.map (fun x => x - npMin data)).map
          (fun x => x * (a * maxMagnitude Dtype.uint8) /
            npMax (data.map (fun y => y - npMin data)))) ∧
    npMaxZ ((out_data Dtype.uint8 1 [-2, 0, 2]).map truncToInt) = 255 ∧
    npMinZ ((out_data Dtype.uint8 1 [-2, 0, 2]).map truncToInt) = 0 := by
  refine ⟨out_data_uint8, ?_, ?_⟩ <;>
    rw [written_uint8_example] <;> decide

/-! ### Claim C9: linearity in the amplitude fraction -/

lemma amplitude_mul (dtype : Dtype) (c a : ℚ) :
    amplitude dtype (c * a) = c * amplitude dtype a := by
  rw [amplitude, amplitude]
  ring

lemma out_data_smul (dtype : Dtype) (c a : ℚ) (data : List ℚ) :
    out_data dtype (c * a) data = (out_data dtype a data).map (fun x => c * x) := by
  rw [out_data, out_data]
  split_ifs with h
  · simp only [List.map_map]
    refine List.map_congr_left (fun x _ => ?_)
    simp only [Function.comp]
    rw [amplitude_mul]
    ring
  · simp only [List.map_map]
    refine List.map_congr_left (fun x _ => ?_)
    simp only [Function.comp]
    rw [amplitude_mul]
    ring

/-- C9: the effective ceiling at `amp_perc = 1/2` is exactly half of the one
at `amp_perc = 1`; more generally the pre-cast output is homogeneous in the
amplitude fraction (`out_data` at `c * a` is `c` times `out_data` at `a`),
for every target representation and every fixed input. -/
theorem C9_amplitude_homogeneous :
    (∀ dtype : Dtype, amplitude dtype (1 / 2) = amplitude dtype 1 / 2) ∧
    (∀ (dtype : Dtype) (c a : ℚ) (data : List ℚ),
      out_data dtype (c * a) data = (out_data dtype a data).map (fun x => c * x)) ∧
    (∀ (dtype : Dtype) (data : List ℚ),
      out_data dtype (1 / 2) data = (out_data dtype 1 data).map (fun x => x / 2)) := by
  refine ⟨?_, out_data_smul, ?_⟩
  · intro dtype
    rw [amplitude, amplitude]
    ring
  · intro dtype data
    have h := out_data_smul dtype (1 / 2) 1 data
    rw [mul_one] at h
    rw [h]
    exact List.map_congr_left (fun x _ => by ring)

/-! ### WAV encoding: sample-rate resolution, path handling, effects

Python strings are modelled as `List Char`.  `wav.write`'s observable
filesystem behaviour (`os.makedirs`, `wavfile.write`) is modelled as an
ordered trace of effects; the current local time (`datetime.now()`) and
`os.path.exists` are injected parameters.
-/

/-- The fields of a `simple_signal.Signal` consumed by `wav.write`
(`signal.data` and `signal.samp_rate`). -/
structure SignalRec where
  data : List ℚ
  samp_rate : ℕ

/-- The `signal` argument of `wav.write`: a raw numpy array or a `Signal`. -/
inductive WavInput
  | arr (data : List ℚ)
  | sig (s : SignalRec)

/-- `data = signal`, then `if isinstance(signal, ss.Signal): data = signal.data`. -/
def inputData : WavInput → List ℚ
  | WavInput.arr d => d
  | WavInput.sig s => s.data

/-- The sampling rate after the `isinstance` branch: a `Signal`'s own
`samp_rate` overwrites any explicitly passed rate. -/
def resolvedRate : WavInput → Option ℕ → Option ℕ
  | WavInput.sig s, _ => some s.samp_rate
  | WavInput.arr _, r => r

/-- The single error `wav.write` raises itself:
`ValueError("Sampling rate is undefined.")`. -/
inductive WavError
  | missingSampleRate
deriving DecidableEq

/-- Observable filesystem actions of `wav.write`. -/
inductive FsEffect
  | makedirs (folder : List Char)
  | wavfileWrite (path : List Char) (rate : ℕ) (buf : List ℚ)
deriving DecidableEq

/-- Python `str.split("/")` on a string modelled as `List Char`.
(`pySplit` never returns `[]`; the `headD`/`tail` defaults are inert.) -/
def pySplit : List Char → List (List Char)
  | [] => [[]]
  | c :: cs =>
    if c = '/' then [] :: pySplit cs
    else (c :: (pySplit cs).headD []) :: (pySplit cs).tail

/-- Python `"/".join(parts)` on strings modelled as `List Char`. -/
def pyJoin : List (List Char) → List Char
  | [] => []
  | [p] => p
  | p :: ps => p ++ '/' :: pyJoin ps

/-- `datetime.now()`: an injected local-time value. -/
structure Timestamp where
  year : ℕ
  month : ℕ
  day : ℕ
  hour : ℕ
  minute : ℕ
  second : ℕ

/-- Two-digit zero-padded decimal rendering, as produced by each field of the
`strftime` format below. -/
def pad2 (n : ℕ) : List Char :=
  if n < 10 then '0' :: Nat.toDigits 10 n else Nat.toDigits 10 n

/-- `datetime.now().strftime("%y%m%d-%H%M%S")`. -/
def strftimeStamp (t : Timestamp) : List Char :=
  pad2 (t.year % 100) ++ pad2 t.month ++ pad2 t.day ++ '-' ::
    (pad2 t.hour ++ pad2 t.minute ++ pad2 t.second)

/-- `wav.write`: resolves the sampling rate, normalises the data, splits the
filename, creates the directory if needed, and writes
`f"{folder}/{timestamp}{raw_filename}.wav"`.  Returns the ordered
filesystem-effect trace and the raised error, if any. -/
def write (filename : List Char) (signal : WavInput) (samp_rate : Option ℕ)
    (amp_perc : ℚ) (dtype : Dtype) (auto_timestamp : Bool) (now : Timestamp)
    (pathExists : List Char → Bool) : List FsEffect × Option WavError :=
  let data := inputData signal
  match resolvedRate signal samp_rate with
  | none => ([], some WavError.missingSampleRate)
  | some rate =>
    let od := out_data dtype amp_perc data
    let raw_filename := (pySplit filename).getLastD []
    let folder := pyJoin (pySplit filename).dropLast
    let mk : List FsEffect :=
      if folder ≠ [] ∧ pathExists folder = false then [FsEffect.makedirs folder]
      else []
    let timestamp := if auto_timestamp then strftimeStamp now ++ ['-'] else []
    (mk ++ [FsEffect.wavfileWrite
        (folder ++ '/' :: (timestamp ++ raw_filename ++ ['.', 'w', 'a', 'v']))
        rate od], none)

/-! ### Path-splitting lemmas -/

lemma pySplit_ne_nil (s : List Char) : pySplit s ≠ [] := by
  cases s with
  | nil => simp [pySplit]
  | cons c cs =>
    rw [pySplit]
    split_ifs <;> simp

lemma pySplit_no_slash (s : List Char) (h : '/' ∉ s) : pySplit s = [s] := by
  induction s with
  | nil => rfl
  | cons c cs ih =>
    have hcne : ¬ c = '/' := fun hc => h (by rw [← hc]; exact List.mem_cons_self c cs)
    have hcs : '/' ∉ cs := fun hm => h (List.mem_cons_of_mem c hm)
    simp only [pySplit, if_neg hcne, ih hcs]
    rfl

lemma pySplit_append_slash (d b : List Char) :
    pySplit (d ++ '/' :: b) = pySplit d ++ pySplit b := by
  induction d with
  | nil => simp [pySplit]
  | cons c d ih =>
    rw [List.cons_append]
    simp only [pySplit]
    by_cases hc : c = '/'
    · rw [if_pos hc, if_pos hc, ih]
      rfl
    · rw [if_neg hc, if_neg hc, ih]
      have hne := pySplit_ne_nil d
      cases hd : pySplit d with
      | nil => exact absurd hd hne
      | cons p ps => simp

lemma pyJoin_pySplit (s : List Char) : pyJoin (pySplit s) = s := by
  induction s with
  | nil => rfl
  | cons c cs ih =>
    rw [pySplit]
    by_cases hc : c = '/'
    · rw [if_pos hc]
      cases hcs : pySplit cs with
      | nil => exact absurd hcs (pySplit_ne_nil cs)
      | cons p ps =>
        rw [hcs] at ih
        rw [show pyJoin ([] :: p :: ps) = [] ++ '/' :: pyJoin (p :: ps) from rfl,
          ih, hc]
        rfl
    · rw [if_neg hc]
      cases hcs : pySplit cs with
      | nil => exact absurd hcs (pySplit_ne_nil cs)
      | cons p ps =>
        rw [hcs] at ih
        cases ps with
        | nil =>
          simp only [List.headD, List.tail]
          rw [show pyJoin [c :: p] = c :: p from rfl]
          rw [show pyJoin [p] = p from rfl] at ih
          rw [ih]
        | cons q qs =>
          simp only [List.headD, List.tail]
          rw [show pyJoin ((c :: p) :: q :: qs) = (c :: p) ++ '/' :: pyJoin (q :: qs)
            from rfl]
          rw [show pyJoin (p :: q :: qs) = p ++ '/' :: pyJoin (q :: qs) from rfl] at ih
          rw [← ih]
          rfl

lemma folder_of_append (d b : List Char) (h : '/' ∉ b) :
    pyJoin (pySplit (d ++ '/' :: b)).dropLast = d := by
  rw [pySplit_append_slash, pySplit_no_slash b h, List.dropLast_concat,
    pyJoin_pySplit]

lemma raw_of_append (d b : List Char) (h : '/' ∉ b) :
    (pySplit (d ++ '/' :: b)).getLastD [] = b := by
  rw [pySplit_append_slash, pySplit_no_slash b h, List.getLastD_concat]

/-! ### The `write` trace on success -/

lemma write_success (filename : List Char) (signal : WavInput)
    (samp_rate : Option ℕ) (r : ℕ) (h : resolvedRate signal samp_rate = some r)
    (amp_perc : ℚ) (dtype : Dtype) (auto_timestamp : Bool) (now : Timestamp)
    (pathExists : List Char → Bool) :
    write filename signal samp_rate amp_perc dtype auto_timestamp now pathExists =
      ((if pyJoin (pySplit filename).dropLast ≠ [] ∧
            pathExists (pyJoin (pySplit filename).dropLast) = false
        then [FsEffect.makedirs (pyJoin (pySplit filename).dropLast)] else []) ++
       [FsEffect.wavfileWrite
          (pyJoin (pySplit filename).dropLast ++ '/' ::
            ((if auto_timestamp then strftimeStamp now ++ ['-'] else []) ++
              (pySplit filename).getLastD [] ++ ['.', 'w', 'a', 'v']))
          r (out_data dtype amp_perc (inputData signal))], none) := by
  unfold write
  rw [h]

/-! ### Claim C4: missing sample rate -/

/-- C4: calling `write` with a raw array and no explicit sample rate raises
the missing-sample-rate error with an empty effect trace: no directory is
created and no file is written. -/
theorem C4_missing_sample_rate (data : List ℚ) (filename : List Char)
    (amp_perc : ℚ) (dtype : Dtype) (auto_timestamp : Bool) (now : Timestamp)
    (pathExists : List Char → Bool) :
    write filename (WavInput.arr data) none amp_perc dtype auto_timestamp now
        pathExists =
      ([], some WavError.missingSampleRate) :=
  rfl

/-! ### Claim C6: the output file path -/

/-- C6: on a successful `write` whose filename splits at its last `/` into a
directory part `d` and a slash-free base name `b`, the file written is exactly
`{d}/{stamp-or-empty}{b}.wav`, where the stamp is the injected local time
rendered as `YYMMDD-HHMMSS` followed by `-` when `auto_timestamp` is true,
and empty otherwise. -/
theorem C6_output_path (d b : List Char) (hb : '/' ∉ b) (signal : WavInput)
    (samp_rate : Option ℕ) (r : ℕ) (hr : resolvedRate signal samp_rate = some r)
    (amp_perc : ℚ) (dtype : Dtype) (auto_timestamp : Bool) (now : Timestamp)
    (pathExists : List Char → Bool) :
    (write (d ++ '/' :: b) signal samp_rate amp_perc dtype auto_timestamp now
        pathExists).2 = none ∧
    (write (d ++ '/' :: b) signal samp_rate amp_perc dtype auto_timestamp now
        pathExists).1.getLastD (FsEffect.makedirs []) =
      FsEffect.wavfileWrite
        (d ++ '/' ::
          ((if auto_timestamp then strftimeStamp now ++ ['-'] else []) ++ b ++
            ['.', 'w', 'a', 'v']))
        r (out_data dtype amp_perc (inputData signal)) := by
  rw [write_success _ _ _ _ hr, folder_of_append d b hb, raw_of_append d b hb]
  exact ⟨rfl, List.getLastD_concat _ _ _⟩

/-- C6 (witness): writing `out/a` as int16 at rate 8 with auto-timestamping
lands at `out/{stamp}-a.wav`. -/
theorem C6_witness :
    (write (['o', 'u', 't'] ++ '/' :: ['a']) (WavInput.arr [1]) (some 8) 1
        Dtype.int16 true ⟨2024, 1, 2, 3, 4, 5⟩ (fun _ => false)).2 = none ∧
    (write (['o', 'u', 't'] ++ '/' :: ['a']) (WavInput.arr [1]) (some 8) 1
        Dtype.int16 true ⟨2024, 1, 2, 3, 4, 5⟩ (fun _ => false)).1.getLastD
        (FsEffect.makedirs []) =
      FsEffect.wavfileWrite
        (['o', 'u', 't'] ++ '/' ::
          ((if true then strftimeStamp ⟨2024, 1, 2, 3, 4, 5⟩ ++ ['-'] else []) ++
            ['a'] ++ ['.', 'w', 'a', 'v']))
        8 (out_data Dtype.int16 1 (inputData (WavInput.arr [1]))) :=
  C6_output_path ['o', 'u', 't'] ['a'] (by decide) (WavInput.arr [1]) (some 8) 8
    rfl 1 Dtype.int16 true ⟨2024, 1, 2, 3, 4, 5⟩ (fun _ => false)

/-! ### Claim C7: a Signal's own rate and data win -/

/-- C7: when `write` is given a `Signal`, the trace is independent of the
explicitly passed sample rate (the argument is ignored), the file is written
at the Signal's `samp_rate`, and the encoded buffer is the normalisation of
the Signal's `data`. -/
theorem C7_signal_rate_wins (filename : List Char) (s : SignalRec)
    (samp_rate : Option ℕ) (amp_perc : ℚ) (dtype : Dtype)
    (auto_timestamp : Bool) (now : Timestamp) (pathExists : List Char → Bool) :
    write filename (WavInput.sig s) samp_rate amp_perc dtype auto_timestamp now
        pathExists =
      write filename (WavInput.sig s) none amp_perc dtype auto_timestamp now
        pathExists ∧
    (write filename (WavInput.sig s) samp_rate amp_perc dtype auto_timestamp now
        pathExists).1.getLastD (FsEffect.makedirs []) =
      FsEffect.wavfileWrite
        (pyJoin (pySplit filename).dropLast ++ '/' ::
          ((if auto_timestamp then strftimeStamp now ++ ['-'] else []) ++
            (pySplit filename).getLastD [] ++ ['.', 'w', 'a', 'v']))
        s.samp_rate (out_data dtype amp_perc s.data) := by
  refine ⟨rfl, ?_⟩
  rw [write_success filename (WavInput.sig s) samp_rate s.samp_rate rfl]
  exact List.getLastD_concat _ _ _

/-! ### Claim C10: a filename without a slash goes to the root -/

/-- C10: when the filename has no `/`, `write` creates no directory (the
directory component is empty) but still prepends `/` to the path, so the
single effect writes the absolute path `/{stamp-or-empty}{filename}.wav`. -/
theorem C10_rootward_path (filename : List Char) (hf : '/' ∉ filename)
    (signal : WavInput) (samp_rate : Option ℕ) (r : ℕ)
    (hr : resolvedRate signal samp_rate = some r) (amp_perc : ℚ) (dtype : Dtype)
    (auto_timestamp : Bool) (now : Timestamp) (pathExists : List Char → Bool) :
    write filename signal samp_rate amp_perc dtype auto_timestamp now pathExists =
      ([FsEffect.wavfileWrite
          ('/' ::
            ((if auto_timestamp then strftimeStamp now ++ ['-'] else []) ++
              filename ++ ['.', 'w', 'a', 'v']))
          r (out_data dtype amp_perc (inputData signal))], none) := by
  rw [write_success _ _ _ _ hr, pySplit_no_slash filename hf]
  simp [pyJoin]

/-- C10 (witness): writing plain `foo` with no timestamp produces the single
effect of writing `/foo.wav` and no directory creation. -/
theorem C10_witness :
    write ['f', 'o', 'o'] (WavInput.arr [1]) (some 8) 1 Dtype.int16 false
        ⟨2024, 1, 2, 3, 4, 5⟩ (fun _ => false) =
      ([FsEffect.wavfileWrite
          ('/' ::
            ((if false then strftimeStamp ⟨2024, 1, 2, 3, 4, 5⟩ ++ ['-'] else []) ++
              ['f', 'o', 'o'] ++ ['.', 'w', 'a', 'v']))
          8 (out_data Dtype.int16 1 (inputData (WavInput.arr [1])))], none) :=
  C10_rootward_path ['f', 'o', 'o'] (by decide) (WavInput.arr [1]) (some 8) 8 rfl
    1 Dtype.int16 false ⟨2024, 1, 2, 3, 4, 5⟩ (fun _ => false)

end Aumix
